import Mathlib

/-!
Verification development for the ZYNGA file review system: a shallow
embedding of the reconciliation engine (sync_daemon.py and sheets_db.py),
the priority engine (priority_engine.py) and the filename parsing of
drive_scanner.py, together with theorems settling the specified
properties of the merge, archival, preservation and scoring behaviour.

Modelling conventions:
- Python strings are Lean strings; helper functions below reproduce the
  exact behaviour of the Python string operations the code uses
  (str.strip, str.split with a separator, str.replace with the empty
  replacement, os.path.splitext, and split on a plus sign).
- Timestamps handed to calculate_priority are modelled as instants in
  integer seconds (UTC), after the parse/normalise steps of the code;
  timedelta.days is floored division by 86400, which Int.fdiv matches.
- The tracking store (the Active Reviews worksheet) is a list of data
  rows in sheet order.  The three formula columns (Days Old, Days Since
  Update, Priority Score) are worksheet formulas recomputed by the store
  from the date columns and are not part of the persisted record model.
- The external I/O (gspread, Drive API, dateutil) is abstracted: the
  reconciliation is the pure function from (scanned documents, current
  store rows) to the next store rows; the dateutil parser is a parameter
  of type String to Option String, none meaning the parse raised.
-/

namespace ZyngaReview

/-! ## Python string primitives -/

/-- Characters removed by the Python str.strip() default (ASCII whitespace). -/
def isPySpace (c : Char) : Bool :=
  c = ' ' || c = '\t' || c = '\n' || c = '\r' || c = Char.ofNat 11 || c = Char.ofNat 12

/-- Python s.strip() on a character list: drop whitespace from both ends. -/
def stripList (l : List Char) : List Char :=
  ((l.dropWhile isPySpace).reverse.dropWhile isPySpace).reverse

/-- Python s.strip() on a string. -/
def pyStrip (s : String) : String := ⟨stripList s.data⟩

/-- Does the list start with the given pattern? -/
def startsWith : List Char → List Char → Bool
  | [], _ => true
  | _ :: _, [] => false
  | p :: ps, c :: cs => p == c && startsWith ps cs

/-- First occurrence of the separator: the part before it and the part
after it, or none when the separator does not occur. -/
def findSep (sep : List Char) : List Char → Option (List Char × List Char)
  | [] => none
  | c :: cs =>
    if startsWith sep (c :: cs) then some ([], (c :: cs).drop sep.length)
    else
      match findSep sep cs with
      | none => none
      | some (b, a) => some (c :: b, a)

/-- Python s.split(sep) for a non-empty separator: repeatedly split at the
leftmost occurrence.  The fuel bounds the number of splits; the input
length is always enough fuel because each split strictly shortens the
remainder. -/
def pySplitAux (sep : List Char) : Nat → List Char → List (List Char)
  | 0, l => [l]
  | fuel + 1, l =>
    match findSep sep l with
    | none => [l]
    | some (b, a) => b :: pySplitAux sep fuel a

/-- Python s.replace(c, two-character empty string) for a one-character
pattern: remove every occurrence of the character. -/
def removeChar (c : Char) (l : List Char) : List Char :=
  l.filter (fun d => d != c)

/-- Index of the last occurrence of a character, if any. -/
def idxOfLast (c : Char) : List Char → Option Nat
  | [] => none
  | d :: ds =>
    match idxOfLast c ds with
    | some j => some (j + 1)
    | none => if d == c then some 0 else none

/-- Python p.rfind(c): index of the last occurrence, or -1. -/
def rfindI (c : Char) (l : List Char) : Int :=
  match idxOfLast c l with
  | none => -1
  | some i => (i : Int)

/-- posixpath.splitext: split off the extension starting at the last dot
of the final path component, unless that component consists of leading
dots only up to that position. -/
def pySplitext (l : List Char) : List Char × List Char :=
  let sepIdx := rfindI '/' l
  let dotIdx := rfindI '.' l
  if sepIdx < dotIdx then
    let d := dotIdx.toNat
    let f := (sepIdx + 1).toNat
    let seg := (l.drop f).take (d - f)
    if seg.any (fun c => c != '.') then (l.take d, l.drop d) else (l, [])
  else (l, [])

/-- Characters kept by Python str(x).split(plus-sign)[0]: the part of the
string before the first plus sign. -/
def takeUntilPlus : List Char → List Char
  | [] => []
  | c :: cs => if c == '+' then [] else c :: takeUntilPlus cs

/-- str(x).split on a plus sign, first component, as used on the two
timestamp columns in sheets_db.upsert_documents. -/
def splitPlusHead (s : String) : String := ⟨takeUntilPlus s.data⟩

/-- The separator used by drive_scanner.parse_filename. -/
def sepDash : List Char := [' ', '-', ' ']

/-! ## drive_scanner.parse_filename -/

/-- drive_scanner.parse_filename: strip the extension with
os.path.splitext, split on the dash separator; with at least two parts
the topic is the first part stripped and the owner is the last part
stripped with the bracket characters removed; otherwise the topic is the
(extension-stripped, unstripped) name and the owner is the sentinel. -/
def parse_filename (filename : String) : String × String :=
  let name : List Char := (pySplitext filename.data).1
  let parts := pySplitAux sepDash name.length name
  match parts with
  | p0 :: p1 :: rest =>
    (⟨stripList p0⟩, ⟨removeChar ']' (removeChar '[' (stripList ((p1 :: rest).getLastD [])))⟩)
  | _ => (⟨name⟩, "Unknown")

/-- The FilenameParser contract exactly as the claim words it: split the
raw name (no extension handling) on the separator; in the fallback branch
the topic is the whole *trimmed* name. -/
def claimC9_parse (filename : String) : String × String :=
  let parts := pySplitAux sepDash filename.data.length filename.data
  match parts with
  | p0 :: p1 :: rest =>
    (⟨stripList p0⟩, ⟨removeChar ']' (removeChar '[' (stripList ((p1 :: rest).getLastD [])))⟩)
  | _ => (pyStrip filename, "Unknown")

/-- The FilenameParser contract as amended: the name is first stripped of
its extension per os.path.splitext, and in the fallback branch the topic
is the extension-stripped name without trimming. -/
def amendedC9_parse (filename : String) : String × String :=
  let name : List Char := (pySplitext filename.data).1
  let parts := pySplitAux sepDash name.length name
  if parts.length < 2 then (⟨name⟩, "Unknown")
  else
    (⟨stripList (parts.headD [])⟩,
     ⟨removeChar ']' (removeChar '[' (stripList (parts.getLastD [])))⟩)

/-! ## priority_engine -/

/-- Seconds per day, the unit of timedelta.days. -/
def secondsPerDay : Int := 86400

/-- Python timedelta(...).days on a difference of d seconds: floored
division by 86400. -/
def timedelta_days (d : Int) : Int := Int.fdiv d secondsPerDay

/-- priority_engine.calculate_priority on UTC instants in seconds:
age in whole days plus latency in whole days, clamped at zero. -/
def calculate_priority (now created modified : Int) : Int :=
  let age_days := timedelta_days (now - created)
  let latency_days := timedelta_days (now - modified)
  max 0 (age_days + latency_days)

/-- floor_days as the specification writes it. -/
def floor_days (d : Int) : Int := Int.fdiv d 86400

/-- priority_engine.get_urgency_level: the label for a score. -/
def get_urgency_level (score : Int) : String :=
  if score ≥ 10 then "🔴 CRITICAL"
  else if score ≥ 5 then "🟡 HIGH"
  else "🟢 NORMAL"

/-! ## Data model of the tracking store and of scanned documents -/

/-- One data row of the Active Reviews worksheet.  Columns F, G, H are
worksheet formulas over columns C and D and are recomputed by the store;
they are not part of the persisted record. -/
structure SheetRow where
  docName : String
  owner : String
  createdDate : String
  lastModified : String
  status : String
  link : String
  notes : String
deriving DecidableEq, Repr

/-- The document dictionary format consumed by sheets_db.upsert_documents.
Scanned Drive documents carry no status_override key (none); the sync
daemon adds status_override Archived on the soft-deletion path.  The
timestamp fields hold str() of the underlying value. -/
structure DocDict where
  topic : String
  architect : String
  link : String
  modifiedTime : String
  createdTime : String
  lastEditor : String
  statusOverride : Option String
deriving DecidableEq, Repr

/-- sync_daemon.map_sheet_row_to_doc_dict: converts a sheet row back to
the document format, with last_editor set to the sentinel (the metadata
is lost once the file is deleted) and status_override Archived. -/
def map_sheet_row_to_doc_dict (row : SheetRow) : DocDict :=
  { topic := row.docName
    architect := row.owner
    link := row.link
    modifiedTime := row.lastModified
    createdTime := row.createdDate
    lastEditor := "Unknown"
    statusOverride := some "Archived" }

/-! ## sheets_db.upsert_documents -/

/-- The existing_map dictionary comprehension of upsert_documents keyed
by the Google Doc Link column: a later row with the same link overwrites
an earlier one, so the lookup returns the last matching row. -/
def existing_map (store : List SheetRow) (link : String) : Option SheetRow :=
  store.reverse.find? (fun r => r.link == link)

/-- The status/notes resolution of upsert_documents: an Archived override
forces status Archived and keeps the existing notes; otherwise a known
link keeps the existing status and notes; otherwise the defaults Pending
and empty notes. -/
def resolve_status_notes (store : List SheetRow) (doc : DocDict) : String × String :=
  if doc.statusOverride = some "Archived" then
    ("Archived",
     match existing_map store doc.link with
     | some r => r.notes
     | none => "")
  else
    match existing_map store doc.link with
    | some r => (r.status, r.notes)
    | none => ("Pending", "")

/-- The row upsert_documents writes for one document: the two date
columns are str(...).split on a plus sign, first part. -/
def doc_to_row (store : List SheetRow) (doc : DocDict) : SheetRow :=
  let sn := resolve_status_notes store doc
  { docName := doc.topic
    owner := doc.architect
    createdDate := splitPlusHead doc.createdTime
    lastModified := splitPlusHead doc.modifiedTime
    status := sn.1
    link := doc.link
    notes := sn.2 }

/-- sheets_db.upsert_documents as a function on the store: when
rows_to_write is non-empty the data region A2:J1000 is cleared and the
new rows are written (a full replacement); when it is empty nothing is
cleared or written and the store is unchanged. -/
def upsert_documents (documents : List DocDict) (store : List SheetRow) : List SheetRow :=
  let rows_to_write := documents.map (doc_to_row store)
  if rows_to_write.isEmpty then store else rows_to_write

/-! ## sync_daemon.sync_job -/

/-- The set of links of the scanned Drive documents. -/
def drive_links (docs : List DocDict) : List String := docs.map DocDict.link

/-- The archived_docs list of sync_job: every existing row with a
non-empty link that is absent from the scan and whose status is not
already Archived, converted back to document format. -/
def archived_docs (driveDocs : List DocDict) (store : List SheetRow) : List DocDict :=
  (store.filter (fun r =>
    decide (r.link ≠ "" ∧ r.link ∉ drive_links driveDocs ∧ r.status ≠ "Archived"))).map
    map_sheet_row_to_doc_dict

/-- The merged final_list of sync_job: scanned documents first, then the
newly archived ones. -/
def final_list (driveDocs : List DocDict) (store : List SheetRow) : List DocDict :=
  driveDocs ++ archived_docs driveDocs store

/-- sync_daemon.sync_job as a function on the store: when final_list is
non-empty it is pushed through upsert_documents, otherwise no write
happens and the store is unchanged. -/
def sync_job (driveDocs : List DocDict) (store : List SheetRow) : List SheetRow :=
  if (final_list driveDocs store).isEmpty then store
  else upsert_documents (final_list driveDocs store) store

/-! ## drive_scanner.scan_review_folder processing loop and cycle-level
error handling -/

/-- One item returned by the Drive files().list call. -/
structure RawItem where
  name : String
  createdTimeText : String
  modifiedTimeText : String
  link : String
  lastEditor : String
deriving DecidableEq, Repr

/-- The per-item processing loop of scan_review_folder.  parseTime stands
for dateutil parser.parse composed with str(); none models the parse
raising.  The loop has no per-item exception handling, so a single
failing timestamp makes the whole scan raise (none): no partial document
list is ever returned. -/
def scan_process (parseTime : String → Option String) :
    List RawItem → Option (List DocDict)
  | [] => some []
  | it :: rest =>
    match parseTime it.modifiedTimeText, parseTime it.createdTimeText with
    | some m, some c =>
      match scan_process parseTime rest with
      | some ds =>
        some ({ topic := (parse_filename it.name).1
                architect := (parse_filename it.name).2
                link := it.link
                modifiedTime := m
                createdTime := c
                lastEditor := it.lastEditor
                statusOverride := none } :: ds)
      | none => none
    | _, _ => none

/-- One full cycle including the scan: on a scan exception sync_job
catches it at the top level (logged as Sync Failed) and nothing is
written, so the store is unchanged; otherwise the reconciliation runs on
the scanned documents. -/
def sync_job_full (parseTime : String → Option String) (items : List RawItem)
    (store : List SheetRow) : List SheetRow :=
  match scan_process parseTime items with
  | none => store
  | some docs => sync_job docs store

/-! ## Helper lemmas about the engine -/

lemma upsert_eq_map (documents : List DocDict) (store : List SheetRow)
    (h : documents ≠ []) :
    upsert_documents documents store = documents.map (doc_to_row store) := by
  unfold upsert_documents
  cases documents with
  | nil => exact absurd rfl h
  | cons d ds => simp [List.isEmpty]

lemma final_list_ne_nil_left (docs : List DocDict) (store : List SheetRow)
    (h : docs ≠ []) : final_list docs store ≠ [] := by
  unfold final_list
  cases docs with
  | nil => exact absurd rfl h
  | cons d ds => simp

lemma sync_job_eq (docs : List DocDict) (store : List SheetRow)
    (h : final_list docs store ≠ []) :
    sync_job docs store = (final_list docs store).map (doc_to_row store) := by
  unfold sync_job
  rw [if_neg (by simpa [List.isEmpty_iff] using h)]
  exact upsert_eq_map _ _ h

lemma sync_job_getElem_scan (docs : List DocDict) (store : List SheetRow)
    (i : Nat) (hi : i < docs.length) :
    (sync_job docs store)[i]? = some (doc_to_row store docs[i]) := by
  have hne : docs ≠ [] := by
    intro h; subst h; simp at hi
  rw [sync_job_eq docs store (final_list_ne_nil_left docs store hne)]
  rw [List.getElem?_map]
  unfold final_list
  rw [List.getElem?_append, if_pos hi, List.getElem?_eq_getElem hi]
  rfl

lemma existing_map_eq_of_nodup (store : List SheetRow) (r : SheetRow)
    (hnd : (store.map SheetRow.link).Nodup) (hr : r ∈ store) :
    existing_map store r.link = some r := by
  induction store with
  | nil => simp at hr
  | cons s ss ih =>
    have hnd' : (ss.map SheetRow.link).Nodup := (List.nodup_cons.mp hnd).2
    have hsl : s.link ∉ ss.map SheetRow.link := (List.nodup_cons.mp hnd).1
    unfold existing_map at ih ⊢
    rw [List.reverse_cons, List.find?_append]
    rcases List.mem_cons.mp hr with h | h
    · subst h
      have hnone : ss.reverse.find? (fun x => x.link == r.link) = none := by
        rw [List.find?_eq_none]
        intro x hx
        simp only [beq_iff_eq]
        intro hlink
        exact hsl (by
          rw [← hlink]
          exact List.mem_map_of_mem SheetRow.link (List.mem_reverse.mp hx))
      rw [hnone]
      simp
    · rw [ih hnd' h]
      rfl

lemma archived_docs_mem (docs : List DocDict) (store : List SheetRow)
    (r : SheetRow) (h1 : r ∈ store) (h2 : r.link ≠ "")
    (h3 : r.link ∉ drive_links docs) (h4 : r.status ≠ "Archived") :
    map_sheet_row_to_doc_dict r ∈ archived_docs docs store := by
  unfold archived_docs
  apply List.mem_map_of_mem
  rw [List.mem_filter]
  exact ⟨h1, by simp [h2, h3, h4]⟩

/-! ## Concrete fixtures for counterexamples and witnesses -/

/-- A scanned Drive document with link LA. -/
def docA : DocDict :=
  { topic := "A", architect := "O", link := "LA"
    modifiedTime := "2024-01-02 00:00:00", createdTime := "2024-01-01 00:00:00"
    lastEditor := "U", statusOverride := none }

/-- A stored row for link LA with a human-entered status and notes. -/
def rowA : SheetRow :=
  { docName := "A", owner := "O", createdDate := "2024-01-01 00:00:00"
    lastModified := "2024-01-02 00:00:00", status := "Approved", link := "LA", notes := "n" }

/-- A stored row for link LB absent from the scan and not yet archived. -/
def rowB : SheetRow :=
  { docName := "B", owner := "P", createdDate := "2024-01-03", lastModified := "2024-01-04"
    status := "Pending", link := "LB", notes := "m" }

/-- The row for link LB after it has been marked Archived. -/
def rowBArch : SheetRow := { rowB with status := "Archived" }

/-- A stored row whose created date carries a timezone suffix after a
plus sign. -/
def rowPlus : SheetRow :=
  { docName := "B", owner := "P", createdDate := "2024-01-01T00:00:00+05:30"
    lastModified := "2024-01-02", status := "Pending", link := "LB", notes := "m" }

/-- A stored row for link LA already archived, for the reappearance case. -/
def rowArchLA : SheetRow :=
  { docName := "A", owner := "O", createdDate := "2024-01-01 00:00:00"
    lastModified := "2024-01-02 00:00:00", status := "Archived", link := "LA", notes := "" }

/-- A concrete timestamp parser that fails exactly on the text BAD. -/
def badParse : String → Option String := fun s => if s == "BAD" then none else some s

/-- A scan item whose timestamps both parse. -/
def itemGood : RawItem :=
  { name := "G - [O]", createdTimeText := "2024-01-01"
    modifiedTimeText := "2024-01-02", link := "LG", lastEditor := "E" }

/-- A scan item whose created timestamp fails to parse. -/
def itemBad : RawItem :=
  { name := "B - [P]", createdTimeText := "BAD"
    modifiedTimeText := "2024-01-03", link := "LZ", lastEditor := "E" }

/-! ## Claim theorems -/

/-- Claim C1 (code bug): reconciliation is not idempotent.  With scan
[docA] and store [rowA, rowB], the first run outputs two rows (rowB
marked Archived); rerunning on that output with the same scan outputs
only one row, because sync_job skips already-Archived rows when building
archived_docs while upsert_documents clears and rewrites the whole data
region, physically dropping the archived row. -/
theorem claim_C1_not_idempotent :
    sync_job [docA] (sync_job [docA] [rowA, rowB]) ≠ sync_job [docA] [rowA, rowB] ∧
    (sync_job [docA] [rowA, rowB]).length = 2 ∧
    (sync_job [docA] (sync_job [docA] [rowA, rowB])).length = 1 ∧
    (sync_job [docA] [rowA, rowB]).map SheetRow.status = ["Approved", "Archived"] := by
  decide

/-- Claim C2 (code bug): the soft-deletion invariant fails.  Identity LB
is present in the store before the cycle with status Archived, and the
cycle physically deletes it: the full clear-and-replace write keeps only
the scanned documents plus newly archived rows, and already-Archived rows
are in neither list. -/
theorem claim_C2_archived_row_deleted :
    "LB" ∈ ([rowA, rowBArch].map SheetRow.link) ∧
    (sync_job [docA] [rowA, rowBArch]).map SheetRow.link = ["LA"] ∧
    "LB" ∉ ((sync_job [docA] [rowA, rowBArch]).map SheetRow.link) := by
  decide

/-- Claim C3 (confirmed): for a scanned document carrying no status
override whose link is already in the store, the emitted row keeps the
prior status and notes unchanged; when the link is new, the defaults are
the status Pending and empty notes. -/
theorem claim_C3_preservation (docs : List DocDict) (store : List SheetRow)
    (i : Nat) (hi : i < docs.length) (hov : docs[i].statusOverride = none) :
    (∀ r, existing_map store docs[i].link = some r →
      ∃ out, (sync_job docs store)[i]? = some out ∧
        out.status = r.status ∧ out.notes = r.notes) ∧
    (existing_map store docs[i].link = none →
      ∃ out, (sync_job docs store)[i]? = some out ∧
        out.status = "Pending" ∧ out.notes = "") := by
  constructor
  · intro r hr
    refine ⟨doc_to_row store docs[i], sync_job_getElem_scan docs store i hi, ?_, ?_⟩
    · simp [doc_to_row, resolve_status_notes, hov, hr]
    · simp [doc_to_row, resolve_status_notes, hov, hr]
  · intro hr
    refine ⟨doc_to_row store docs[i], sync_job_getElem_scan docs store i hi, ?_, ?_⟩
    · simp [doc_to_row, resolve_status_notes, hov, hr]
    · simp [doc_to_row, resolve_status_notes, hov, hr]

/-- Witness for claim C3 at a concrete input: prior status Approved and
notes n reappear unchanged. -/
theorem claim_C3_witness :
    ∃ out, (sync_job [docA] [rowA])[0]? = some out ∧
      out.status = "Approved" ∧ out.notes = "n" :=
  (claim_C3_preservation [docA] [rowA] 0 (by decide) (by decide)).1 rowA (by decide)

/-- Counterexample for claim C4: the archived record does not preserve
the created timestamp verbatim — upsert_documents truncates both date
columns at the first plus sign, so a stored value with a timezone suffix
comes back shortened. -/
theorem claim_C4_cex :
    (sync_job [] [rowPlus]).map SheetRow.link = ["LB"] ∧
    (sync_job [] [rowPlus]).map SheetRow.status = ["Archived"] ∧
    (sync_job [] [rowPlus]).map SheetRow.createdDate = ["2024-01-01T00:00:00"] ∧
    rowPlus.createdDate = "2024-01-01T00:00:00+05:30" ∧
    ("2024-01-01T00:00:00" : String) ≠ "2024-01-01T00:00:00+05:30" := by
  decide

/-- Claim C4 as amended: for a stored row with a non-empty link, unique
in the store, absent from the scan and not yet Archived, the output
contains a record with status Archived whose document name, owner, link
and notes are preserved and whose date columns are the prior values
truncated at the first plus sign (values the engine itself wrote contain
no plus sign, so they round-trip unchanged); the store has no last-editor
column, and the synthesized document sets last editor to the sentinel. -/
theorem claim_C4_archival (docs : List DocDict) (store : List SheetRow) (r : SheetRow)
    (hnd : (store.map SheetRow.link).Nodup) (hr : r ∈ store) (h2 : r.link ≠ "")
    (h3 : r.link ∉ drive_links docs) (h4 : r.status ≠ "Archived") :
    ∃ out ∈ sync_job docs store,
      out.docName = r.docName ∧ out.owner = r.owner ∧ out.link = r.link ∧
      out.status = "Archived" ∧ out.notes = r.notes ∧
      out.createdDate = splitPlusHead r.createdDate ∧
      out.lastModified = splitPlusHead r.lastModified := by
  have hmem : map_sheet_row_to_doc_dict r ∈ archived_docs docs store :=
    archived_docs_mem docs store r hr h2 h3 h4
  have hfl : map_sheet_row_to_doc_dict r ∈ final_list docs store := by
    unfold final_list
    exact List.mem_append_right _ hmem
  have hne : final_list docs store ≠ [] := List.ne_nil_of_mem hfl
  refine ⟨doc_to_row store (map_sheet_row_to_doc_dict r), ?_, ?_⟩
  · rw [sync_job_eq docs store hne]
    exact List.mem_map_of_mem _ hfl
  · have hlook : existing_map store r.link = some r :=
      existing_map_eq_of_nodup store r hnd hr
    refine ⟨rfl, rfl, rfl, ?_, ?_, rfl, rfl⟩
    · simp [doc_to_row, map_sheet_row_to_doc_dict, resolve_status_notes]
    · simp [doc_to_row, map_sheet_row_to_doc_dict, resolve_status_notes, hlook]

/-- Witness for the amended claim C4 at a concrete input. -/
theorem claim_C4_witness :
    ∃ out ∈ sync_job [docA] [rowA, rowB],
      out.docName = rowB.docName ∧ out.owner = rowB.owner ∧ out.link = rowB.link ∧
      out.status = "Archived" ∧ out.notes = rowB.notes ∧
      out.createdDate = splitPlusHead rowB.createdDate ∧
      out.lastModified = splitPlusHead rowB.lastModified :=
  claim_C4_archival [docA] [rowA, rowB] rowB (by decide) (by decide) (by decide)
    (by decide) (by decide)

/-- Counterexample for claim C5: an archived record that reappears in the
scan with no status override keeps status Archived instead of becoming
Pending — the preservation branch copies the prior status verbatim and
there is no un-archival path. -/
theorem claim_C5_cex :
    (sync_job [docA] [rowArchLA]).map SheetRow.status = ["Archived"] ∧
    docA.statusOverride = none ∧
    rowArchLA.status = "Archived" ∧
    docA.link = rowArchLA.link ∧
    (["Archived"] : List String) ≠ ["Pending"] := by
  decide

/-- Claim C5 as amended: a reappearing document whose stored status is
Archived keeps status Archived whenever its override is anything other
than the literal Archived (including no override at all); reappearance
does not reverse archival. -/
theorem claim_C5_stays_archived (docs : List DocDict) (store : List SheetRow)
    (i : Nat) (hi : i < docs.length)
    (hov : docs[i].statusOverride ≠ some "Archived")
    (r : SheetRow) (hr : existing_map store docs[i].link = some r)
    (hA : r.status = "Archived") :
    ∃ out, (sync_job docs store)[i]? = some out ∧ out.status = "Archived" := by
  refine ⟨doc_to_row store docs[i], sync_job_getElem_scan docs store i hi, ?_⟩
  simp [doc_to_row, resolve_status_notes, hov, hr, hA]

/-- Witness for the amended claim C5 at a concrete input. -/
theorem claim_C5_witness :
    ∃ out, (sync_job [docA] [rowArchLA])[0]? = some out ∧ out.status = "Archived" :=
  claim_C5_stays_archived [docA] [rowArchLA] 0 (by decide) (by decide) rowArchLA
    (by decide) (by decide)

/-- Counterexample for claim C6: with now at the epoch and both
timestamps one day in the future, modified is not below created, yet the
returned score is 0 while the sum of floored day differences is -2; the
claimed equality and nonnegativity of the sum both fail. -/
theorem claim_C6_cex :
    (86400 : Int) ≤ 86400 ∧
    calculate_priority 0 86400 86400 = 0 ∧
    floor_days (0 - 86400) + floor_days (0 - 86400) = -2 ∧
    (0 : Int) ≠ -2 := by
  decide

/-- Claim C6 as amended: calculate_priority always returns
max(0, floor_days(now - createdAt) + floor_days(now - modifiedAt)); and
whenever created is at or before modified and modified is at or before
now, the clamp is inactive, so the score equals the plain sum of floored
day differences and is nonnegative. -/
theorem claim_C6_formula :
    (∀ now created modified : Int,
      calculate_priority now created modified =
        max 0 (floor_days (now - created) + floor_days (now - modified))) ∧
    (∀ now created modified : Int, created ≤ modified → modified ≤ now →
      calculate_priority now created modified =
        floor_days (now - created) + floor_days (now - modified) ∧
      0 ≤ calculate_priority now created modified) := by
  constructor
  · intro now c m
    rfl
  · intro now c m h1 h2
    have hc : (0 : Int) ≤ now - c := by omega
    have hm : (0 : Int) ≤ now - m := by omega
    have h3 : 0 ≤ (now - c).fdiv 86400 := Int.fdiv_nonneg hc (by norm_num)
    have h4 : 0 ≤ (now - m).fdiv 86400 := Int.fdiv_nonneg hm (by norm_num)
    have heq : calculate_priority now c m = floor_days (now - c) + floor_days (now - m) := by
      unfold calculate_priority timedelta_days floor_days secondsPerDay
      exact max_eq_right (by omega)
    refine ⟨heq, ?_⟩
    rw [heq]
    show 0 ≤ (now - c).fdiv 86400 + (now - m).fdiv 86400
    omega

/-- Witness for the amended claim C6 at a concrete input. -/
theorem claim_C6_witness :
    calculate_priority 200000 0 100000 =
      floor_days (200000 - 0) + floor_days (200000 - 100000) ∧
    0 ≤ calculate_priority 200000 0 100000 :=
  claim_C6_formula.2 200000 0 100000 (by decide) (by decide)

/-- Claim C7 (confirmed): the urgency label is the critical one exactly
for scores at least 10, the high one exactly for scores in [5, 10), and
the normal one exactly below 5; the boundary scores 4, 5, 9, 10 classify
as normal, high, high, critical. -/
theorem claim_C7_urgency :
    (∀ s : Int, (get_urgency_level s = "🔴 CRITICAL" ↔ 10 ≤ s)) ∧
    (∀ s : Int, (get_urgency_level s = "🟡 HIGH" ↔ 5 ≤ s ∧ s < 10)) ∧
    (∀ s : Int, (get_urgency_level s = "🟢 NORMAL" ↔ s < 5)) ∧
    get_urgency_level 4 = "🟢 NORMAL" ∧ get_urgency_level 5 = "🟡 HIGH" ∧
    get_urgency_level 9 = "🟡 HIGH" ∧ get_urgency_level 10 = "🔴 CRITICAL" := by
  refine ⟨?_, ?_, ?_, by decide, by decide, by decide, by decide⟩
  · intro s
    unfold get_urgency_level
    split_ifs with h1 h2
    · exact iff_of_true rfl h1
    · exact iff_of_false (by decide) h1
    · exact iff_of_false (by decide) h1
  · intro s
    unfold get_urgency_level
    split_ifs with h1 h2
    · exact iff_of_false (by decide) (by omega)
    · exact iff_of_true rfl (by omega)
    · exact iff_of_false (by decide) (by omega)
  · intro s
    unfold get_urgency_level
    split_ifs with h1 h2
    · exact iff_of_false (by decide) (by omega)
    · exact iff_of_false (by decide) (by omega)
    · exact iff_of_true rfl (by omega)

/-- One unparseable timestamp anywhere in the scan makes the whole
processing loop raise: scan_review_folder has no per-item exception
handling, so no document list is produced at all. -/
lemma scan_process_eq_none (parseTime : String → Option String) (items : List RawItem)
    (h : ∃ it ∈ items,
      parseTime it.modifiedTimeText = none ∨ parseTime it.createdTimeText = none) :
    scan_process parseTime items = none := by
  induction items with
  | nil => simp at h
  | cons a rest ih =>
    rcases h with ⟨it, hmem, hfail⟩
    rcases List.mem_cons.mp hmem with heq | hmem'
    · subst heq
      rcases hfail with hf | hf
      · cases hm : parseTime it.modifiedTimeText with
        | none => simp [scan_process, hm]
        | some m => rw [hm] at hf; exact absurd hf (by simp)
      · cases hm : parseTime it.modifiedTimeText with
        | none => simp [scan_process, hm]
        | some m => simp [scan_process, hm, hf]
    · have hrest := ih ⟨it, hmem', hfail⟩
      cases hm : parseTime a.modifiedTimeText with
      | none => simp [scan_process, hm]
      | some m =>
        cases hc : parseTime a.createdTimeText with
        | none => simp [scan_process, hm, hc]
        | some c => simp [scan_process, hm, hc, hrest]

/-- Counterexample for claim C8: a scan holding one good document and one
document with an unparseable created timestamp writes nothing at all —
the whole cycle is aborted and even the good document (link LG) is
missing from the output, against the claimed single-document exclusion. -/
theorem claim_C8_cex :
    scan_process badParse [itemGood, itemBad] = none ∧
    sync_job_full badParse [itemGood, itemBad] [] = [] ∧
    "LG" ∉ (sync_job_full badParse [itemGood, itemBad] []).map SheetRow.link := by
  decide

/-- Claim C8 as amended: when any document of the scan has an
unparseable created or modified timestamp, the scan raises, the
cycle-level handler in sync_job catches and logs it, and the store is
left entirely unchanged — no document of that scan is written and the
process keeps running. -/
theorem claim_C8_abort (parseTime : String → Option String) (items : List RawItem)
    (store : List SheetRow)
    (h : ∃ it ∈ items,
      parseTime it.modifiedTimeText = none ∨ parseTime it.createdTimeText = none) :
    sync_job_full parseTime items store = store := by
  unfold sync_job_full
  rw [scan_process_eq_none parseTime items h]

/-- Witness for the amended claim C8 at a concrete input. -/
theorem claim_C8_witness :
    sync_job_full badParse [itemBad] [rowA] = [rowA] :=
  claim_C8_abort badParse [itemBad] [rowA] ⟨itemBad, by decide, Or.inr (by decide)⟩

/-- Counterexample for claim C9: on the input v1.2 the code first strips
the dot suffix via os.path.splitext, yielding topic v1 rather than the
whole name v1.2 the claim prescribes. -/
theorem claim_C9_cex :
    parse_filename "v1.2" = ("v1", "Unknown") ∧
    claimC9_parse "v1.2" = ("v1.2", "Unknown") ∧
    (("v1", "Unknown") : String × String) ≠ ("v1.2", "Unknown") := by
  decide

/-- Claim C9 as amended: parse_filename always returns a pair; the input
is first stripped of its extension per os.path.splitext, then split on
the dash separator; with at least two segments the topic is the first
segment trimmed and the owner is the last segment trimmed with bracket
characters removed; otherwise the topic is the extension-stripped name
without trimming and the owner is the sentinel Unknown.  The two
examples of the claim hold as stated. -/
theorem claim_C9_contract :
    (∀ s : String, parse_filename s = amendedC9_parse s) ∧
    parse_filename "System Design - [Jane Doe]" = ("System Design", "Jane Doe") ∧
    parse_filename "UntitledDoc" = ("UntitledDoc", "Unknown") := by
  refine ⟨?_, by decide, by decide⟩
  intro s
  simp only [parse_filename, amendedC9_parse]
  cases hp : pySplitAux sepDash (pySplitext s.data).1.length (pySplitext s.data).1 with
  | nil => simp
  | cons p0 ps =>
    cases ps with
    | nil => simp
    | cons p1 rest =>
      simp [List.getLastD_cons]
      rw [if_neg (by omega)]

/-- Claim C10 (confirmed): an empty merged list performs no clear and no
write — both the final_list guard in sync_job and the rows_to_write guard
in upsert_documents leave the store exactly unchanged. -/
theorem claim_C10_frame (docs : List DocDict) (store : List SheetRow) :
    (final_list docs store = [] → sync_job docs store = store) ∧
    upsert_documents [] store = store := by
  constructor
  · intro h
    unfold sync_job
    rw [h]
    simp
  · simp [upsert_documents]

/-- Witness for claim C10 at a concrete input: a store holding only an
already-archived row and an empty scan produce an empty merged list, and
the stored row survives untouched. -/
theorem claim_C10_witness :
    sync_job [] [rowBArch] = [rowBArch] ∧ upsert_documents [] [rowBArch] = [rowBArch] :=
  ⟨(claim_C10_frame [] [rowBArch]).1 (by decide), (claim_C10_frame [] [rowBArch]).2⟩

end ZyngaReview
